import Mathlib

/-!
Verification development for the gator-game timing/trial engine.

The definitions below are a shallow embedding of the repository's
JavaScript sources:

* configuration constants come from `config.js`;
* `adjustDelay`, `drainTick`, `triggerGameOver`, the two choice
  procedures and `resetForNewPhase` come from `engine.js`;
* `timerPause` / `timerResume` / `delayPause` / `delayResume` and the
  drift-corrected `tick` arithmetic come from `timer.js`;
* the one-shot completion signal of `createDelay` is modelled by
  `DelaySignal` / `resolveSignal` (first resolution wins, later
  resolutions are no-ops, which is the host promise semantics the code
  relies on).

Times and energies are modelled as `Int` (JavaScript numbers used
integrally by the code).  The asynchronous choice procedures are split
at their `await` suspension points into a start function and resume
functions, with an explicit control state `Ctl` recording which
suspension (if any) is pending together with the local variables the
suspended procedure still holds (`energyBefore`, `delayAtChoice`).
-/

namespace GatorGame

/-- CONFIG.STARTING_ENERGY from config.js. -/
def STARTING_ENERGY : Int := 50

/-- CONFIG.MAX_ENERGY from config.js. -/
def MAX_ENERGY : Int := 100

/-- CONFIG.SMALLER_SOONER_REWARD from config.js. -/
def SMALLER_SOONER_REWARD : Int := 1

/-- CONFIG.INITIAL_DELAY_MS from config.js. -/
def INITIAL_DELAY_MS : Int := 6000

/-- CONFIG.DELAY_STEP_MS from config.js. -/
def DELAY_STEP_MS : Int := 2000

/-- CONFIG.MIN_DELAY_MS from config.js. -/
def MIN_DELAY_MS : Int := 2000

/-- CONFIG.EXPOSURE_REWARD from config.js. -/
def EXPOSURE_REWARD : Int := 10

/-- CONFIG.DAYS_PER_CONDITION from config.js. -/
def DAYS_PER_CONDITION : Int := 5

/-- CONFIG.CONDITION_DURATION_MS from config.js (5 minutes). -/
def CONDITION_DURATION_MS : Int := 5 * 60 * 1000

/-- The two choice kinds recorded by data.js. -/
inductive Choice
  | smallerSooner
  | largerLater
deriving DecidableEq

/-- One trial record as assembled by `recordTrial` in engine.js
(the engine-supplied fields; participant/bookkeeping fields of data.js
are outside the trial engine). -/
structure Trial where
  choice : Choice
  delayAtChoice : Int
  pointsEarned : Int
  energyBefore : Int
  energyAfter : Int
deriving DecidableEq

/-- Control state of the (single) in-flight choice procedure: which
`await` suspension point it is parked at, carrying the local variables
the suspended JavaScript coroutine still holds. -/
inductive Ctl
  | idle
  | fishAnimating (energyBefore : Int)
  | llWaiting (energyBefore : Int) (delayAtChoice : Int)
  | llAnimating (energyBefore : Int) (delayAtChoice : Int)
deriving DecidableEq

/-- The engine-relevant fields of the state store (state.js) plus the
control state of the in-flight choice procedure, the list of emitted
trial records (data.js `trials`), and a counter of `triggerGameOver`
invocations used to state the exactly-once property. -/
structure EState where
  currentEnergy : Int
  totalEnergyGained : Int
  currentDelayMs : Int
  trialNumber : Nat
  isAnimating : Bool
  isWaitingDelay : Bool
  isDead : Bool
  choicesDisabled : Bool
  isExposure : Bool
  rewardAmount : Int
  conditionElapsedMs : Int
  daysLeft : Int
  gameOverCount : Nat
  drainStopped : Bool
  ctl : Ctl
  trials : List Trial
deriving DecidableEq

/-- `triggerGameOver` from engine.js: sets the dead/disabled flags,
cancels the active delay and its cosmetic countdown (modelled by the
resume event later firing with `completed = false`), and stops the
drain timer.  `gameOverCount` counts invocations. -/
def triggerGameOver (s : EState) : EState :=
  { s with isDead := true, choicesDisabled := true,
           gameOverCount := s.gameOverCount + 1,
           drainStopped := true }

/-- The body of the drain timer started by `startDrain` in engine.js:
if energy is already ≤ 0 the tick returns immediately; otherwise it
drains one point (floored at 0) and triggers game-over when the
decrement reaches 0. -/
def drainTick (s : EState) : EState :=
  if s.currentEnergy ≤ 0 then s
  else
    let newEnergy := max 0 (s.currentEnergy - 1)
    let s1 := { s with currentEnergy := newEnergy }
    if newEnergy ≤ 0 then triggerGameOver s1 else s1

/-- The larger-later reward as computed in `handleLLChoice`:
`CONFIG.EXPOSURE_REWARD` during the exposure phase, else the group's
`rewardAmount` from the state store. -/
def llReward (s : EState) : Int :=
  if s.isExposure then EXPOSURE_REWARD else s.rewardAmount

/-- The two directions accepted by `adjustDelay` in engine.js. -/
inductive Direction
  | increase
  | decrease
deriving DecidableEq

/-- The staircase update of `adjustDelay` in engine.js as a function of
the current delay value. -/
def adjustDelay (direction : Direction) (current : Int) : Int :=
  match direction with
  | Direction.increase => current + DELAY_STEP_MS
  | Direction.decrease => max MIN_DELAY_MS (current - DELAY_STEP_MS)

/-- Restatement of the spec's staircase update rule in its own words
("immediate → += STEP; delayed consumed → max(MIN_DELAY, − STEP)"),
kept separate from `adjustDelay` so the two can be compared. -/
def staircaseSpecUpdate (direction : Direction) (current : Int) : Int :=
  match direction with
  | Direction.increase => current + DELAY_STEP_MS
  | Direction.decrease => max MIN_DELAY_MS (current - DELAY_STEP_MS)

/-- The entry guard shared by `handleFishChoice` and `handleLLChoice`. -/
def choiceGuard (s : EState) : Bool :=
  s.choicesDisabled || s.isDead || s.isAnimating || s.isWaitingDelay

/-- `handleFishChoice` up to its `await playEatingAnimation`: guard,
then mark the trial started and suspend, remembering `energyBefore`. -/
def handleFishChoiceStart (s : EState) : EState :=
  if choiceGuard s then s
  else
    { s with trialNumber := s.trialNumber + 1,
             isAnimating := true,
             choicesDisabled := true,
             ctl := Ctl.fishAnimating s.currentEnergy }

/-- `handleFishChoice` after its `await` resumes: bail out if dead,
otherwise award the smaller-sooner reward (clamped to `MAX_ENERGY`),
advance the staircase by `increase`, and record the trial. -/
def handleFishChoiceResume (s : EState) : EState :=
  match s.ctl with
  | Ctl.fishAnimating energyBefore =>
    if s.isDead then
      { s with isAnimating := false, ctl := Ctl.idle }
    else
      let reward := SMALLER_SOONER_REWARD
      let newEnergy := min MAX_ENERGY (s.currentEnergy + reward)
      let delayAtChoice := s.currentDelayMs
      { s with currentEnergy := newEnergy,
               totalEnergyGained := s.totalEnergyGained + reward,
               isAnimating := false,
               choicesDisabled := false,
               currentDelayMs := adjustDelay Direction.increase s.currentDelayMs,
               ctl := Ctl.idle,
               trials := s.trials ++
                 [⟨Choice.smallerSooner, delayAtChoice, reward, energyBefore, newEnergy⟩] }
  | _ => s

/-- `handleLLChoice` up to its `await activeDelay.promise`: guard, mark
the waiting state and suspend, remembering `energyBefore` and the delay
value read at choice time. -/
def handleLLChoiceStart (s : EState) : EState :=
  if choiceGuard s then s
  else
    { s with trialNumber := s.trialNumber + 1,
             isWaitingDelay := true,
             choicesDisabled := true,
             ctl := Ctl.llWaiting s.currentEnergy s.currentDelayMs }

/-- `handleLLChoice` when the reward delay resolves with `completed`:
bail out if the delay was cancelled or death intervened, otherwise move
to the consumption animation. -/
def handleLLChoiceDelayResume (completed : Bool) (s : EState) : EState :=
  match s.ctl with
  | Ctl.llWaiting energyBefore delayAtChoice =>
    if !completed || s.isDead then
      { s with isWaitingDelay := false, isAnimating := false, ctl := Ctl.idle }
    else
      { s with isWaitingDelay := false, isAnimating := true,
               ctl := Ctl.llAnimating energyBefore delayAtChoice }
  | _ => s

/-- `handleLLChoice` after the consumption animation resumes: bail out
if dead, otherwise award the larger-later reward (clamped), advance the
staircase by `decrease`, and record the trial. -/
def handleLLChoiceAnimResume (s : EState) : EState :=
  match s.ctl with
  | Ctl.llAnimating energyBefore delayAtChoice =>
    if s.isDead then
      { s with isAnimating := false, ctl := Ctl.idle }
    else
      let reward := llReward s
      let newEnergy := min MAX_ENERGY (s.currentEnergy + reward)
      { s with currentEnergy := newEnergy,
               totalEnergyGained := s.totalEnergyGained + reward,
               isAnimating := false,
               choicesDisabled := false,
               currentDelayMs := adjustDelay Direction.decrease s.currentDelayMs,
               ctl := Ctl.idle,
               trials := s.trials ++
                 [⟨Choice.largerLater, delayAtChoice, reward, energyBefore, newEnergy⟩] }
  | _ => s

/-- One tick of `startConditionTimer` in engine.js: advance the elapsed
counter by 1000 ms and recompute the coarse days-left display value
(the engine's other effects there are presentation-only). -/
def conditionTick (s : EState) : EState :=
  let elapsed := s.conditionElapsedMs + 1000
  let remaining := max 0 (CONDITION_DURATION_MS - elapsed)
  let dayLength := CONDITION_DURATION_MS / DAYS_PER_CONDITION
  let newDays := min DAYS_PER_CONDITION ((remaining + dayLength - 1) / dayLength)
  { s with conditionElapsedMs := elapsed, daysLeft := newDays }

/-- `resetForNewPhase` from engine.js: stop all timers (modelled by the
pending delay resume later firing with `completed = false`) and
reinitialize energy, staircase value, trial counter, busy/dead flags
and elapsed time to their configured starting values.  Note that
`totalEnergyGained` is not touched. -/
def resetForNewPhase (s : EState) : EState :=
  { s with currentEnergy := STARTING_ENERGY,
           currentDelayMs := INITIAL_DELAY_MS,
           trialNumber := 0,
           isAnimating := false,
           isWaitingDelay := false,
           isDead := false,
           choicesDisabled := false,
           conditionElapsedMs := 0,
           daysLeft := DAYS_PER_CONDITION }

/-- The events that mutate the engine state: the drain tick, the two
choice procedures split at their suspension points, the condition-timer
tick, a phase change by the outer sequencer, and the phase reset. -/
inductive Event
  | drain
  | fishStart
  | fishResume
  | llStart
  | llDelayResume (completed : Bool)
  | llAnimResume
  | condTick
  | phaseChange (isExposure : Bool)
  | reset
deriving DecidableEq

/-- Apply one event to the engine state. -/
def applyEvent : Event → EState → EState
  | Event.drain => drainTick
  | Event.fishStart => handleFishChoiceStart
  | Event.fishResume => handleFishChoiceResume
  | Event.llStart => handleLLChoiceStart
  | Event.llDelayResume completed => handleLLChoiceDelayResume completed
  | Event.llAnimResume => handleLLChoiceAnimResume
  | Event.condTick => conditionTick
  | Event.phaseChange e => fun s => { s with isExposure := e }
  | Event.reset => resetForNewPhase

/-- The engine-relevant projection of `initialState` in state.js, with
the group's reward amount and phase as parameters (set by the sequencer
at session start). -/
def initState (rewardAmount : Int) (isExposure : Bool) : EState :=
  { currentEnergy := 50,
    totalEnergyGained := 0,
    currentDelayMs := 6000,
    trialNumber := 0,
    isAnimating := false,
    isWaitingDelay := false,
    isDead := false,
    choicesDisabled := false,
    isExposure := isExposure,
    rewardAmount := rewardAmount,
    conditionElapsedMs := 0,
    daysLeft := 5,
    gameOverCount := 0,
    drainStopped := false,
    ctl := Ctl.idle,
    trials := [] }

/-- Multi-step reachability by arbitrary event sequences (the session
machine: any interleaving of engine events including phase resets). -/
inductive SessSteps : EState → EState → Prop
  | refl (s : EState) : SessSteps s s
  | tail {s t : EState} (h : SessSteps s t) (ev : Event) :
      SessSteps s (applyEvent ev t)

/-- One engine step within a single segment.  This is the session
machine restricted to the events that can occur between one
`resetForNewPhase` and the next, with the scheduler's causality for the
reward delay made explicit: within a segment the only code path that
cancels the active delay is `triggerGameOver`, which sets `isDead`
before cancelling, so a resume with `completed = false` can only be
observed in a dead state. -/
inductive SegStep : EState → EState → Prop
  | drain (s : EState) : SegStep s (drainTick s)
  | fishStart (s : EState) : SegStep s (handleFishChoiceStart s)
  | fishResume (s : EState) : SegStep s (handleFishChoiceResume s)
  | llStart (s : EState) : SegStep s (handleLLChoiceStart s)
  | llDelayResume (s : EState) (completed : Bool)
      (hc : completed = false → s.isDead = true) :
      SegStep s (handleLLChoiceDelayResume completed s)
  | llAnimResume (s : EState) : SegStep s (handleLLChoiceAnimResume s)
  | condTick (s : EState) : SegStep s (conditionTick s)

/-- Reachability from a segment-start state by segment steps. -/
inductive SegReachable (s0 : EState) : EState → Prop
  | init : SegReachable s0 s0
  | step {s t : EState} (h : SegReachable s0 s) (hs : SegStep s t) :
      SegReachable s0 t

/-- A clean segment-start state: no busy flags, alive, choices enabled,
no in-flight procedure (the situation `resetForNewPhase` establishes
for a fresh segment). -/
def SegInitOk (s : EState) : Prop :=
  s.isAnimating = false ∧ s.isWaitingDelay = false ∧ s.isDead = false ∧
  s.choicesDisabled = false ∧ s.ctl = Ctl.idle

/-- Whether the control state is parked at the reward-delay wait. -/
def ctlIsLLWaiting : Ctl → Bool
  | Ctl.llWaiting _ _ => true
  | _ => false

/-- Whether the control state is parked at a consumption animation. -/
def ctlIsAnimating : Ctl → Bool
  | Ctl.fishAnimating _ => true
  | Ctl.llAnimating _ _ => true
  | _ => false

/-- The busy-flag coherence invariant of the trial engine within a
segment: the two busy flags mirror the control state exactly, and
`choicesDisabled` equals busy-or-dead. -/
def SegInv (s : EState) : Prop :=
  s.isWaitingDelay = ctlIsLLWaiting s.ctl ∧
  s.isAnimating = ctlIsAnimating s.ctl ∧
  s.choicesDisabled = (s.isAnimating || s.isWaitingDelay || s.isDead)

-- ===== Scheduler models (timer.js) =====

/-- The pause/resume-relevant state of a repeating timer created by
`createTimer` in timer.js: the expected-fire anchor, the paused flag,
and the frozen remaining time. -/
structure TimerState where
  expected : Int
  paused : Bool
  remainingMs : Int
deriving DecidableEq

/-- `pause` of `createTimer`: a no-op when already paused; otherwise
freeze the remaining time as `max 0 (expected − now)`. -/
def timerPause (now : Int) (t : TimerState) : TimerState :=
  if t.paused then t
  else { t with paused := true, remainingMs := max 0 (t.expected - now) }

/-- `resume` of `createTimer`: a no-op when not paused; otherwise
re-anchor the expected fire time from the moment of resume using the
frozen remaining time. -/
def timerResume (now : Int) (t : TimerState) : TimerState :=
  if !t.paused then t
  else { t with paused := false, expected := now + t.remainingMs }

/-- Remaining time of a running timer at instant `now` (the value the
timeout would be armed with). -/
def timerRemaining (now : Int) (t : TimerState) : Int :=
  max 0 (t.expected - now)

/-- The pause/resume-relevant state of a single-shot delay created by
`createDelay` in timer.js. -/
structure DelayState where
  startTime : Int
  remainingMs : Int
  paused : Bool
deriving DecidableEq

/-- `pause` of `createDelay`: a no-op when already paused; otherwise
freeze the remaining time, subtracting the time already elapsed since
`startTime` and flooring at 0. -/
def delayPause (now : Int) (d : DelayState) : DelayState :=
  if d.paused then d
  else { d with paused := true,
                remainingMs := max 0 (d.remainingMs - (now - d.startTime)) }

/-- `resume` of `createDelay`: a no-op when not paused; otherwise
restart the clock from the moment of resume and arm a timeout of
exactly the frozen remaining time. -/
def delayResume (now : Int) (d : DelayState) : DelayState :=
  if !d.paused then d
  else { d with paused := false, startTime := now }

/-- Remaining time of a running delay at instant `now`. -/
def delayRemaining (now : Int) (d : DelayState) : Int :=
  max 0 (d.remainingMs - (now - d.startTime))

/-- The drift clamp inside `tick` of `createTimer`:
`Math.min(drift, intervalMs - 1)`. -/
def clampedDrift (drift intervalMs : Int) : Int :=
  min drift (intervalMs - 1)

/-- The re-anchored expected fire time computed by `tick`:
`expected = now + intervalMs - Math.min(drift, intervalMs - 1)` with
`drift = now - expected`. -/
def tickNextExpected (now intervalMs expected : Int) : Int :=
  now + intervalMs - clampedDrift (now - expected) intervalMs

/-- The timeout `tick` arms for the next fire:
`Math.max(0, expected - now)` against the re-anchored expected time. -/
def tickArmedDelay (now intervalMs expected : Int) : Int :=
  max 0 (tickNextExpected now intervalMs expected - now)

/-- The one-time completion signal of `createDelay`: `none` while
pending, `some v` once resolved.  The host promise resolves at most
once; later resolutions are no-ops. -/
structure DelaySignal where
  result : Option Bool
deriving DecidableEq

/-- Resolve the completion signal with `v`: first resolution wins,
resolving an already-resolved signal changes nothing. -/
def resolveSignal (v : Bool) (d : DelaySignal) : DelaySignal :=
  match d.result with
  | none => { result := some v }
  | some _ => d

/-- Natural expiry of the delay: the timeout body resolves with `true`. -/
def expireSignal (d : DelaySignal) : DelaySignal := resolveSignal true d

/-- `cancel()` of `createDelay`: resolves with `false`. -/
def cancelSignal (d : DelaySignal) : DelaySignal := resolveSignal false d

/-- A fresh, unresolved completion signal. -/
def pendingSignal : DelaySignal := { result := none }

/-- Apply a sequence of resolution attempts to a signal, in order. -/
def runSignalEvents (evs : List Bool) (d : DelaySignal) : DelaySignal :=
  evs.foldl (fun acc v => resolveSignal v acc) d

-- ===== Derived predicates and concrete example states =====

/-- The energy (and reward-sign) invariant carried through the session
machine. -/
def EnergyInv (s : EState) : Prop :=
  0 ≤ s.currentEnergy ∧ s.currentEnergy ≤ MAX_ENERGY ∧ 0 ≤ s.rewardAmount

/-- The observable fields an aborted trial must leave untouched: no
reward into energy, no accounting into the running total, no staircase
movement, no emitted trial record. -/
def abortPreserves (s t : EState) : Prop :=
  t.currentEnergy = s.currentEnergy ∧
  t.totalEnergyGained = s.totalEnergyGained ∧
  t.currentDelayMs = s.currentDelayMs ∧
  t.trials = s.trials

/-- A concrete group-B-style session start (reward 5, condition phase). -/
def exState : EState := initState 5 false

/-- A concrete state one drain tick away from death. -/
def exEnergyOne : EState := { exState with currentEnergy := 1 }

/-- The concrete dead state produced by draining `exEnergyOne`. -/
def exDeadZero : EState := drainTick exEnergyOne

/-- A concrete state suspended inside the fish consumption animation. -/
def exFishAnim : EState :=
  { exState with isAnimating := true, choicesDisabled := true,
                 ctl := Ctl.fishAnimating 50 }

/-- Like `exFishAnim` but death intervened during the animation. -/
def exFishAnimDead : EState := { exFishAnim with isDead := true }

/-- A concrete state suspended at the larger-later reward delay. -/
def exLLWait : EState :=
  { exState with isWaitingDelay := true, choicesDisabled := true,
                 ctl := Ctl.llWaiting 50 6000 }

/-- A concrete state suspended inside the larger-later consumption
animation. -/
def exLLAnim : EState :=
  { exState with isAnimating := true, choicesDisabled := true,
                 ctl := Ctl.llAnimating 50 6000 }

/-- Like `exLLAnim` but death intervened during the animation. -/
def exLLAnimDead : EState := { exLLAnim with isDead := true }

/-- A concrete running repeating timer with 7000 ms to its expected
fire at clock 2000. -/
def exTimer : TimerState := { expected := 9000, paused := false, remainingMs := 0 }

/-- A concrete 6000 ms delay started at clock 0. -/
def exDelay : DelayState := { startTime := 0, remainingMs := 6000, paused := false }

-- ===== Theorems =====

/-- Helper: one staircase update never takes the delay below the floor. -/
theorem min_le_adjustDelay (dir : Direction) (d : Int)
    (h : MIN_DELAY_MS ≤ d) : MIN_DELAY_MS ≤ adjustDelay dir d := by
  cases dir <;>
    simp only [adjustDelay, MIN_DELAY_MS, DELAY_STEP_MS] at * <;> omega

/-- Helper: folding any sequence of staircase updates preserves the
floor. -/
theorem min_le_foldl_adjustDelay (dirs : List Direction) (d : Int)
    (h : MIN_DELAY_MS ≤ d) :
    MIN_DELAY_MS ≤ dirs.foldl (fun cur dir => adjustDelay dir cur) d := by
  induction dirs generalizing d with
  | nil => simpa using h
  | cons dir rest ih => exact ih _ (min_le_adjustDelay dir d h)

/-- C4: for every sequence of choices within a segment, starting from
the configured initial delay, `MIN_DELAY_MS ≤ currentDelayMs` holds
after every staircase update; moreover every engine event preserves the
floor on `currentDelayMs`. -/
theorem c4_delay_floor_invariant (dirs : List Direction) (ev : Event)
    (s : EState) (h : MIN_DELAY_MS ≤ s.currentDelayMs) :
    MIN_DELAY_MS ≤ dirs.foldl (fun cur dir => adjustDelay dir cur) INITIAL_DELAY_MS ∧
    MIN_DELAY_MS ≤ (applyEvent ev s).currentDelayMs := by
  constructor
  · exact min_le_foldl_adjustDelay dirs INITIAL_DELAY_MS (by norm_num [MIN_DELAY_MS, INITIAL_DELAY_MS])
  · cases ev with
    | drain =>
      simp only [applyEvent, drainTick, triggerGameOver]
      split
      · exact h
      · split <;> exact h
    | fishStart =>
      simp only [applyEvent, handleFishChoiceStart]
      split <;> exact h
    | fishResume =>
      simp only [applyEvent, handleFishChoiceResume]
      cases hctl : s.ctl <;> simp only []
      case fishAnimating eb =>
        split
        · exact h
        · exact min_le_adjustDelay Direction.increase _ h
      all_goals exact h
    | llStart =>
      simp only [applyEvent, handleLLChoiceStart]
      split <;> exact h
    | llDelayResume completed =>
      simp only [applyEvent, handleLLChoiceDelayResume]
      cases hctl : s.ctl <;> simp only []
      case llWaiting eb dac => split <;> exact h
      all_goals exact h
    | llAnimResume =>
      simp only [applyEvent, handleLLChoiceAnimResume]
      cases hctl : s.ctl <;> simp only []
      case llAnimating eb dac =>
        split
        · exact h
        · exact min_le_adjustDelay Direction.decrease _ h
      all_goals exact h
    | condTick => exact h
    | phaseChange e => exact h
    | reset =>
      simp only [applyEvent, resetForNewPhase]
      norm_num [MIN_DELAY_MS, INITIAL_DELAY_MS]

/-- Witness for C4 at a concrete state and event. -/
theorem c4_delay_floor_invariant_witness :
    MIN_DELAY_MS ≤
      [Direction.decrease, Direction.decrease,
       Direction.increase].foldl (fun cur dir => adjustDelay dir cur) INITIAL_DELAY_MS ∧
    MIN_DELAY_MS ≤ (applyEvent Event.fishStart exState).currentDelayMs :=
  c4_delay_floor_invariant
    [Direction.decrease, Direction.decrease, Direction.increase]
    Event.fishStart exState (by decide)

/-- C5: the staircase update applied after a granted reward is exactly
the spec's rule: immediate choice adds `DELAY_STEP_MS` with no ceiling,
a consumed delayed choice moves to
`max MIN_DELAY_MS (currentDelayMs - DELAY_STEP_MS)`; in particular
6000 goes to 8000 on an immediate choice and 2000 stays at 2000 on a
consumed delayed choice. -/
theorem c5_staircase_update_exact :
    (∀ dir d, adjustDelay dir d = staircaseSpecUpdate dir d) ∧
    adjustDelay Direction.increase 6000 = 8000 ∧
    adjustDelay Direction.decrease 2000 = 2000 ∧
    (∀ (s : EState) (eb : Int), s.ctl = Ctl.fishAnimating eb →
      s.isDead = false →
      (handleFishChoiceResume s).currentDelayMs =
        s.currentDelayMs + DELAY_STEP_MS) ∧
    (∀ (s : EState) (eb dac : Int), s.ctl = Ctl.llAnimating eb dac →
      s.isDead = false →
      (handleLLChoiceAnimResume s).currentDelayMs =
        max MIN_DELAY_MS (s.currentDelayMs - DELAY_STEP_MS)) := by
  refine ⟨fun dir d => rfl, by decide, by decide, ?_, ?_⟩
  · intro s eb hctl hdead
    simp [handleFishChoiceResume, hctl, hdead, adjustDelay]
  · intro s eb dac hctl hdead
    simp [handleLLChoiceAnimResume, hctl, hdead, adjustDelay]

/-- Witness for C5: the two granted-reward updates evaluated on
concrete suspended states with delay 6000. -/
theorem c5_staircase_update_exact_witness :
    (handleFishChoiceResume exFishAnim).currentDelayMs =
      exFishAnim.currentDelayMs + DELAY_STEP_MS ∧
    (handleLLChoiceAnimResume exLLAnim).currentDelayMs =
      max MIN_DELAY_MS (exLLAnim.currentDelayMs - DELAY_STEP_MS) :=
  ⟨c5_staircase_update_exact.2.2.2.1 exFishAnim 50 rfl rfl,
   c5_staircase_update_exact.2.2.2.2 exLLAnim 50 6000 rfl rfl⟩

/-- C6: pausing a live repeating timer or delay and resuming after an
arbitrary real-time duration `P` contributes zero elapsed progress: the
remaining time at the instant of resume equals the remaining time at
the instant of pause, which is exactly the frozen snapshot. -/
theorem c6_pause_resume_zero_progress (t : TimerState) (d : DelayState)
    (tp P : Int) (ht : t.paused = false) (hd : d.paused = false) :
    timerRemaining (tp + P) (timerResume (tp + P) (timerPause tp t)) =
      timerRemaining tp t ∧
    (timerPause tp t).remainingMs = timerRemaining tp t ∧
    delayRemaining (tp + P) (delayResume (tp + P) (delayPause tp d)) =
      delayRemaining tp d ∧
    (delayPause tp d).remainingMs = delayRemaining tp d := by
  refine ⟨?_, ?_, ?_, ?_⟩ <;>
    simp [timerPause, timerResume, timerRemaining,
          delayPause, delayResume, delayRemaining, ht, hd] <;> omega

/-- Witness for C6: a 6000 ms delay started at clock 0 with 4000 ms
remaining when paused at clock 2000, backgrounded for 10000 ms, still
has exactly 4000 ms remaining at resume (clock 12000). -/
theorem c6_pause_resume_zero_progress_witness :
    delayRemaining 12000 (delayResume 12000 (delayPause 2000 exDelay)) =
      delayRemaining 2000 exDelay ∧
    delayRemaining 2000 exDelay = 4000 :=
  ⟨(c6_pause_resume_zero_progress exTimer exDelay 2000 10000 rfl rfl).2.2.1,
   by decide⟩

/-- C7: each fire of a drift-corrected timer clamps the measured drift
to at most `intervalMs - 1`, re-anchors the next expected fire time
from the current instant (offset `intervalMs` minus the clamped drift),
and the timeout armed for the next fire is never negative and never
compensates by more than `intervalMs - 1`. -/
theorem c7_drift_corrected_tick (now intervalMs expected : Int)
    (h : 1 ≤ intervalMs) :
    0 ≤ tickArmedDelay now intervalMs expected ∧
    intervalMs - tickArmedDelay now intervalMs expected ≤ intervalMs - 1 ∧
    clampedDrift (now - expected) intervalMs ≤ intervalMs - 1 ∧
    tickNextExpected now intervalMs expected =
      now + (intervalMs - clampedDrift (now - expected) intervalMs) := by
  refine ⟨?_, ?_, ?_, ?_⟩ <;>
    simp only [tickArmedDelay, tickNextExpected, clampedDrift] <;> omega

/-- Witness for C7: a 1000 ms timer that fires 2000 ms late (heavy
starvation) still arms a strictly positive next timeout, compensating
by exactly `intervalMs - 1`. -/
theorem c7_drift_corrected_tick_witness :
    0 ≤ tickArmedDelay 10000 1000 8000 ∧
    1000 - tickArmedDelay 10000 1000 8000 ≤ 1000 - 1 ∧
    clampedDrift (10000 - 8000) 1000 ≤ 1000 - 1 ∧
    tickNextExpected 10000 1000 8000 =
      10000 + (1000 - clampedDrift (10000 - 8000) 1000) :=
  c7_drift_corrected_tick 10000 1000 8000 (by decide)

/-- Helper: a resolved completion signal absorbs any further
resolution attempts. -/
theorem runSignalEvents_resolved (evs : List Bool) (d : DelaySignal)
    (h : d.result.isSome) : runSignalEvents evs d = d := by
  induction evs with
  | nil => rfl
  | cons v rest ih =>
    have hres : resolveSignal v d = d := by
      rcases hr : d.result with _ | b
      · rw [hr] at h; simp at h
      · simp [resolveSignal, hr]
    show runSignalEvents rest (resolveSignal v d) = d
    rw [hres, ih]

/-- C8: a delay's completion signal resolves `true` on natural expiry
and `false` if cancelled first; once resolved its value never changes,
so cancel after completion, double cancel, and any further resolution
sequence are no-ops. -/
theorem c8_delay_signal_one_shot (d : DelaySignal) (v : Bool)
    (evs : List Bool) (h : d.result.isSome) :
    resolveSignal v d = d ∧
    (expireSignal pendingSignal).result = some true ∧
    (cancelSignal pendingSignal).result = some false ∧
    cancelSignal (expireSignal pendingSignal) = expireSignal pendingSignal ∧
    cancelSignal (cancelSignal pendingSignal) = cancelSignal pendingSignal ∧
    runSignalEvents evs (expireSignal pendingSignal) = expireSignal pendingSignal ∧
    runSignalEvents evs (cancelSignal pendingSignal) = cancelSignal pendingSignal := by
  refine ⟨?_, rfl, rfl, rfl, rfl, ?_, ?_⟩
  · rcases hr : d.result with _ | b
    · rw [hr] at h; simp at h
    · simp [resolveSignal, hr]
  · exact runSignalEvents_resolved evs _ rfl
  · exact runSignalEvents_resolved evs _ rfl

/-- Witness for C8: cancelling a signal that already resolved `true`
changes nothing, applied at a concrete resolved signal and a concrete
later event sequence. -/
theorem c8_delay_signal_one_shot_witness :
    resolveSignal false { result := some true } = { result := some true } :=
  (c8_delay_signal_one_shot { result := some true } false [false, true] rfl).1

/-- C1: when game-over intervenes while a choice procedure is parked at
the reward delay or a consumption animation, the resumed procedure
unwinds without touching `currentEnergy`, `totalEnergyGained` or
`currentDelayMs` and without emitting a trial record. -/
theorem c1_aborted_trial_grants_nothing (s : EState) (completed : Bool) :
    (s.isDead = true → abortPreserves s (handleFishChoiceResume s)) ∧
    (s.isDead = true → abortPreserves s (handleLLChoiceAnimResume s)) ∧
    (completed = false ∨ s.isDead = true →
      abortPreserves s (handleLLChoiceDelayResume completed s)) := by
  refine ⟨?_, ?_, ?_⟩
  · intro hdead
    cases hctl : s.ctl <;>
      simp [handleFishChoiceResume, hctl, hdead, abortPreserves]
  · intro hdead
    cases hctl : s.ctl <;>
      simp [handleLLChoiceAnimResume, hctl, hdead, abortPreserves]
  · intro hbail
    cases hctl : s.ctl <;>
      cases completed <;>
        rcases hbail with hbail | hbail <;>
          simp_all [handleLLChoiceDelayResume, abortPreserves]

/-- Witness for C1: the three abort resumptions evaluated on concrete
dead or cancelled suspended states grant nothing. -/
theorem c1_aborted_trial_grants_nothing_witness :
    abortPreserves exFishAnimDead (handleFishChoiceResume exFishAnimDead) ∧
    abortPreserves exLLAnimDead (handleLLChoiceAnimResume exLLAnimDead) ∧
    abortPreserves exLLWait (handleLLChoiceDelayResume false exLLWait) :=
  ⟨(c1_aborted_trial_grants_nothing exFishAnimDead true).1 rfl,
   (c1_aborted_trial_grants_nothing exLLAnimDead true).2.1 rfl,
   (c1_aborted_trial_grants_nothing exLLWait false).2.2 (Or.inl rfl)⟩

/-- C2: from `currentEnergy = 1`, one drain tick reaches energy 0 and
triggers game-over exactly once; any tick that runs after energy has
reached 0 leaves the state completely unchanged, so a second tick fires
no second game-over. -/
theorem c2_drain_death_exactly_once (s : EState)
    (h : s.currentEnergy = 1) :
    (drainTick s).currentEnergy = 0 ∧
    (drainTick s).isDead = true ∧
    (drainTick s).gameOverCount = s.gameOverCount + 1 ∧
    drainTick (drainTick s) = drainTick s ∧
    (∀ t : EState, t.currentEnergy ≤ 0 → drainTick t = t) := by
  have hnoop : ∀ t : EState, t.currentEnergy ≤ 0 → drainTick t = t := by
    intro t ht
    simp [drainTick, ht]
  have hkill : drainTick s = triggerGameOver { s with currentEnergy := 0 } := by
    simp [drainTick, h]
  refine ⟨?_, ?_, ?_, ?_, hnoop⟩
  · rw [hkill]; rfl
  · rw [hkill]; rfl
  · rw [hkill]; rfl
  · exact hnoop _ (by rw [hkill]; exact le_refl 0)

/-- Witness for C2 at the concrete state with energy 1. -/
theorem c2_drain_death_exactly_once_witness :
    (drainTick exEnergyOne).currentEnergy = 0 ∧
    (drainTick exEnergyOne).isDead = true ∧
    (drainTick exEnergyOne).gameOverCount = exEnergyOne.gameOverCount + 1 ∧
    drainTick (drainTick exEnergyOne) = drainTick exEnergyOne ∧
    (∀ t : EState, t.currentEnergy ≤ 0 → drainTick t = t) :=
  c2_drain_death_exactly_once exEnergyOne rfl

/-- Helper: no engine event ever changes the group's reward amount. -/
theorem rewardAmount_applyEvent (ev : Event) (s : EState) :
    (applyEvent ev s).rewardAmount = s.rewardAmount := by
  cases ev with
  | drain =>
    simp only [applyEvent, drainTick, triggerGameOver]
    split
    · rfl
    · split <;> rfl
  | fishStart =>
    simp only [applyEvent, handleFishChoiceStart]; split <;> rfl
  | fishResume =>
    simp only [applyEvent, handleFishChoiceResume]
    cases hctl : s.ctl <;> simp only []
    case fishAnimating eb => split <;> rfl
    all_goals rfl
  | llStart =>
    simp only [applyEvent, handleLLChoiceStart]; split <;> rfl
  | llDelayResume completed =>
    simp only [applyEvent, handleLLChoiceDelayResume]
    cases hctl : s.ctl <;> simp only []
    case llWaiting eb dac => split <;> rfl
    all_goals rfl
  | llAnimResume =>
    simp only [applyEvent, handleLLChoiceAnimResume]
    cases hctl : s.ctl <;> simp only []
    case llAnimating eb dac => split <;> rfl
    all_goals rfl
  | condTick => rfl
  | phaseChange e => rfl
  | reset => rfl

/-- Helper: each engine event leaves `totalEnergyGained` unchanged or
adds exactly the granted reward. -/
theorem totalGained_applyEvent (ev : Event) (s : EState) :
    (applyEvent ev s).totalEnergyGained = s.totalEnergyGained ∨
    (applyEvent ev s).totalEnergyGained =
      s.totalEnergyGained + SMALLER_SOONER_REWARD ∨
    (applyEvent ev s).totalEnergyGained = s.totalEnergyGained + llReward s := by
  cases ev with
  | drain =>
    left
    simp only [applyEvent, drainTick, triggerGameOver]
    split
    · rfl
    · split <;> rfl
  | fishStart =>
    left; simp only [applyEvent, handleFishChoiceStart]; split <;> rfl
  | fishResume =>
    simp only [applyEvent, handleFishChoiceResume]
    cases hctl : s.ctl <;> simp only []
    case fishAnimating eb =>
      split
      · left; rfl
      · right; left; rfl
    all_goals simp
  | llStart =>
    left; simp only [applyEvent, handleLLChoiceStart]; split <;> rfl
  | llDelayResume completed =>
    left
    simp only [applyEvent, handleLLChoiceDelayResume]
    cases hctl : s.ctl <;> simp only []
    case llWaiting eb dac => split <;> rfl
    all_goals rfl
  | llAnimResume =>
    simp only [applyEvent, handleLLChoiceAnimResume]
    cases hctl : s.ctl <;> simp only []
    case llAnimating eb dac =>
      split
      · left; rfl
      · right; right; rfl
    all_goals simp
  | condTick => left; rfl
  | phaseChange e => left; rfl
  | reset => left; rfl

/-- Helper: the reward amount is invariant across any session trace. -/
theorem rewardAmount_sessSteps {s t : EState} (h : SessSteps s t) :
    t.rewardAmount = s.rewardAmount := by
  induction h with
  | refl => rfl
  | tail h ev ih => rw [rewardAmount_applyEvent, ih]

/-- C10: `totalEnergyGained` is monotonically nondecreasing over the
whole session (every event leaves it unchanged or adds the granted
reward, which is nonnegative for any group reward amount), and
`resetForNewPhase` reinitializes energy, staircase value, trial
counter, elapsed time and all busy/dead flags but does not reset
`totalEnergyGained`. -/
theorem c10_totalEnergyGained_monotone (s t : EState) (ev : Event)
    (hsess : SessSteps s t) (hr : 0 ≤ s.rewardAmount) :
    s.totalEnergyGained ≤ t.totalEnergyGained ∧
    ((applyEvent ev t).totalEnergyGained = t.totalEnergyGained ∨
     (applyEvent ev t).totalEnergyGained =
       t.totalEnergyGained + SMALLER_SOONER_REWARD ∨
     (applyEvent ev t).totalEnergyGained = t.totalEnergyGained + llReward t) ∧
    (resetForNewPhase t).totalEnergyGained = t.totalEnergyGained ∧
    (resetForNewPhase t).currentEnergy = STARTING_ENERGY ∧
    (resetForNewPhase t).currentDelayMs = INITIAL_DELAY_MS ∧
    (resetForNewPhase t).trialNumber = 0 ∧
    (resetForNewPhase t).conditionElapsedMs = 0 ∧
    (resetForNewPhase t).isAnimating = false ∧
    (resetForNewPhase t).isWaitingDelay = false ∧
    (resetForNewPhase t).isDead = false ∧
    (resetForNewPhase t).choicesDisabled = false := by
  have hmono : ∀ {u w : EState}, SessSteps u w → 0 ≤ u.rewardAmount →
      u.totalEnergyGained ≤ w.totalEnergyGained := by
    intro u w hsteps hru
    induction hsteps with
    | refl => exact le_refl _
    | tail hsteps ev ih =>
      rename_i w'
      refine le_trans ih ?_
      have hrw : 0 ≤ w'.rewardAmount := by
        rw [rewardAmount_sessSteps hsteps]; exact hru
      have hll : 0 ≤ llReward w' := by
        unfold llReward EXPOSURE_REWARD
        split
        · norm_num
        · exact hrw
      have hss : (0 : Int) ≤ SMALLER_SOONER_REWARD := by
        norm_num [SMALLER_SOONER_REWARD]
      rcases totalGained_applyEvent ev w' with h0 | h0 | h0 <;> rw [h0] <;> omega
  exact ⟨hmono hsess hr, totalGained_applyEvent ev t,
    rfl, rfl, rfl, rfl, rfl, rfl, rfl, rfl, rfl⟩

/-- Witness for C10: a concrete two-step trace (drain tick, then phase
reset) from a session start with reward amount 5. -/
theorem c10_totalEnergyGained_monotone_witness :
    exState.totalEnergyGained ≤
      (applyEvent Event.reset (applyEvent Event.drain exState)).totalEnergyGained ∧
    ((applyEvent Event.condTick
        (applyEvent Event.reset (applyEvent Event.drain exState))).totalEnergyGained =
       (applyEvent Event.reset (applyEvent Event.drain exState)).totalEnergyGained ∨
     (applyEvent Event.condTick
        (applyEvent Event.reset (applyEvent Event.drain exState))).totalEnergyGained =
       (applyEvent Event.reset (applyEvent Event.drain exState)).totalEnergyGained +
         SMALLER_SOONER_REWARD ∨
     (applyEvent Event.condTick
        (applyEvent Event.reset (applyEvent Event.drain exState))).totalEnergyGained =
       (applyEvent Event.reset (applyEvent Event.drain exState)).totalEnergyGained +
         llReward (applyEvent Event.reset (applyEvent Event.drain exState))) ∧
    (resetForNewPhase
        (applyEvent Event.reset (applyEvent Event.drain exState))).totalEnergyGained =
      (applyEvent Event.reset (applyEvent Event.drain exState)).totalEnergyGained ∧
    (resetForNewPhase
        (applyEvent Event.reset (applyEvent Event.drain exState))).currentEnergy =
      STARTING_ENERGY ∧
    (resetForNewPhase
        (applyEvent Event.reset (applyEvent Event.drain exState))).currentDelayMs =
      INITIAL_DELAY_MS ∧
    (resetForNewPhase
        (applyEvent Event.reset (applyEvent Event.drain exState))).trialNumber = 0 ∧
    (resetForNewPhase
        (applyEvent Event.reset (applyEvent Event.drain exState))).conditionElapsedMs = 0 ∧
    (resetForNewPhase
        (applyEvent Event.reset (applyEvent Event.drain exState))).isAnimating = false ∧
    (resetForNewPhase
        (applyEvent Event.reset (applyEvent Event.drain exState))).isWaitingDelay = false ∧
    (resetForNewPhase
        (applyEvent Event.reset (applyEvent Event.drain exState))).isDead = false ∧
    (resetForNewPhase
        (applyEvent Event.reset (applyEvent Event.drain exState))).choicesDisabled = false :=
  c10_totalEnergyGained_monotone exState
    (applyEvent Event.reset (applyEvent Event.drain exState)) Event.condTick
    (SessSteps.tail (SessSteps.tail (SessSteps.refl exState) Event.drain) Event.reset)
    (by decide)

/-- Helper: every segment step preserves the busy-flag coherence
invariant. -/
theorem segStep_inv {s t : EState} (hstep : SegStep s t) (h : SegInv s) :
    SegInv t := by
  obtain ⟨h1, h2, h3⟩ := h
  cases hstep with
  | drain =>
    simp only [drainTick, triggerGameOver]
    split
    · exact ⟨h1, h2, h3⟩
    · split
      · exact ⟨h1, h2, by simp [h3]⟩
      · exact ⟨h1, h2, h3⟩
  | fishStart =>
    simp only [handleFishChoiceStart]
    cases hcg : choiceGuard s with
    | true => simp only [if_pos rfl]; exact ⟨h1, h2, h3⟩
    | false =>
      simp only [choiceGuard] at hcg
      simp at hcg
      obtain ⟨⟨⟨hdis, hdead⟩, hanim⟩, hwait⟩ := hcg
      simp only [Bool.false_eq_true, if_false]
      exact ⟨by simp [ctlIsLLWaiting, hwait], by simp [ctlIsAnimating],
             by simp⟩
  | fishResume =>
    cases hctl : s.ctl with
    | fishAnimating eb =>
      rw [hctl] at h1 h2
      simp only [ctlIsLLWaiting, ctlIsAnimating] at h1 h2
      simp only [handleFishChoiceResume, hctl]
      cases hdead : s.isDead with
      | true =>
        simp only [if_pos rfl]
        refine ⟨by simp [ctlIsLLWaiting, h1], by simp [ctlIsAnimating], ?_⟩
        simp [h3, h2, h1, hdead]
      | false =>
        simp only [Bool.false_eq_true, if_false]
        exact ⟨by simp [ctlIsLLWaiting, h1], by simp [ctlIsAnimating],
               by simp [h1, hdead]⟩
    | idle => simpa [handleFishChoiceResume, hctl] using ⟨h1, h2, h3⟩
    | llWaiting eb dac => simpa [handleFishChoiceResume, hctl] using ⟨h1, h2, h3⟩
    | llAnimating eb dac => simpa [handleFishChoiceResume, hctl] using ⟨h1, h2, h3⟩
  | llStart =>
    simp only [handleLLChoiceStart]
    cases hcg : choiceGuard s with
    | true => simp only [if_pos rfl]; exact ⟨h1, h2, h3⟩
    | false =>
      simp only [choiceGuard] at hcg
      simp at hcg
      obtain ⟨⟨⟨hdis, hdead⟩, hanim⟩, hwait⟩ := hcg
      simp only [Bool.false_eq_true, if_false]
      exact ⟨by simp [ctlIsLLWaiting], by simp [ctlIsAnimating, hanim],
             by simp⟩
  | llDelayResume completed hc =>
    cases hctl : s.ctl with
    | llWaiting eb dac =>
      rw [hctl] at h1 h2
      simp only [ctlIsLLWaiting, ctlIsAnimating] at h1 h2
      simp only [handleLLChoiceDelayResume, hctl]
      cases hbail : (!completed || s.isDead) with
      | true =>
        have hdead : s.isDead = true := by
          cases completed with
          | false => exact hc rfl
          | true => simpa using hbail
        simp only [if_pos rfl]
        refine ⟨by simp [ctlIsLLWaiting], by simp [ctlIsAnimating], ?_⟩
        simp [h3, h1, hdead]
      | false =>
        simp only [Bool.false_eq_true, if_false]
        refine ⟨by simp [ctlIsLLWaiting], by simp [ctlIsAnimating], ?_⟩
        simp [h3, h1]
    | idle => simpa [handleLLChoiceDelayResume, hctl] using ⟨h1, h2, h3⟩
    | fishAnimating eb =>
      simpa [handleLLChoiceDelayResume, hctl] using ⟨h1, h2, h3⟩
    | llAnimating eb dac =>
      simpa [handleLLChoiceDelayResume, hctl] using ⟨h1, h2, h3⟩
  | llAnimResume =>
    cases hctl : s.ctl with
    | llAnimating eb dac =>
      rw [hctl] at h1 h2
      simp only [ctlIsLLWaiting, ctlIsAnimating] at h1 h2
      simp only [handleLLChoiceAnimResume, hctl]
      cases hdead : s.isDead with
      | true =>
        simp only [if_pos rfl]
        refine ⟨by simp [ctlIsLLWaiting, h1], by simp [ctlIsAnimating], ?_⟩
        simp [h3, h2, h1, hdead]
      | false =>
        simp only [Bool.false_eq_true, if_false]
        exact ⟨by simp [ctlIsLLWaiting, h1], by simp [ctlIsAnimating],
               by simp [h1, hdead]⟩
    | idle => simpa [handleLLChoiceAnimResume, hctl] using ⟨h1, h2, h3⟩
    | fishAnimating eb =>
      simpa [handleLLChoiceAnimResume, hctl] using ⟨h1, h2, h3⟩
    | llWaiting eb dac =>
      simpa [handleLLChoiceAnimResume, hctl] using ⟨h1, h2, h3⟩
  | condTick => exact ⟨h1, h2, h3⟩

/-- Helper: the coherence invariant holds at every state reachable from
a clean segment start. -/
theorem segInv_of_reachable {s0 s : EState} (h0 : SegInitOk s0)
    (hr : SegReachable s0 s) : SegInv s := by
  induction hr with
  | init =>
    obtain ⟨ha, hw, hd, hc, hctl⟩ := h0
    refine ⟨?_, ?_, ?_⟩
    · rw [hw, hctl]; rfl
    · rw [ha, hctl]; rfl
    · rw [hc, ha, hw, hd]; rfl
  | step h hs ih => exact segStep_inv hs ih

/-- C9: in every state of the trial engine reachable within a segment,
at most one of `isAnimating` and `isWaitingDelay` is set, and
`choicesDisabled` holds exactly when the engine is not idle or dead. -/
theorem c9_busy_flag_invariant {s0 s : EState} (h0 : SegInitOk s0)
    (hr : SegReachable s0 s) :
    ¬(s.isAnimating = true ∧ s.isWaitingDelay = true) ∧
    (s.choicesDisabled = true ↔
      (s.isAnimating = true ∨ s.isWaitingDelay = true ∨ s.isDead = true)) := by
  obtain ⟨h1, h2, h3⟩ := segInv_of_reachable h0 hr
  constructor
  · rintro ⟨ha, hw⟩
    rw [h2] at ha
    rw [h1] at hw
    cases hctl : s.ctl <;>
      rw [hctl] at ha hw <;> simp [ctlIsLLWaiting, ctlIsAnimating] at ha hw
  · rw [h3]
    cases s.isAnimating <;> cases s.isWaitingDelay <;> cases s.isDead <;> simp

/-- Witness for C9: the invariant evaluated two steps into a concrete
segment (a larger-later choice followed by a drain tick). -/
theorem c9_busy_flag_invariant_witness :
    ¬((drainTick (handleLLChoiceStart exState)).isAnimating = true ∧
      (drainTick (handleLLChoiceStart exState)).isWaitingDelay = true) ∧
    ((drainTick (handleLLChoiceStart exState)).choicesDisabled = true ↔
      ((drainTick (handleLLChoiceStart exState)).isAnimating = true ∨
       (drainTick (handleLLChoiceStart exState)).isWaitingDelay = true ∨
       (drainTick (handleLLChoiceStart exState)).isDead = true)) :=
  c9_busy_flag_invariant ⟨rfl, rfl, rfl, rfl, rfl⟩
    (SegReachable.step
      (SegReachable.step SegReachable.init (SegStep.llStart exState))
      (SegStep.drain (handleLLChoiceStart exState)))

/-- Helper: every engine event preserves the energy bounds (and the
sign of the configured reward amount). -/
theorem energyInv_applyEvent (ev : Event) (s : EState) (h : EnergyInv s) :
    EnergyInv (applyEvent ev s) := by
  obtain ⟨h1, h2, h3⟩ := h
  have hM : MAX_ENERGY = 100 := rfl
  have hS : SMALLER_SOONER_REWARD = 1 := rfl
  have hSt : STARTING_ENERGY = 50 := rfl
  cases ev with
  | drain =>
    simp only [applyEvent, drainTick, triggerGameOver]
    split
    · exact ⟨h1, h2, h3⟩
    · split <;> refine ⟨?_, ?_, h3⟩ <;> dsimp only <;> omega
  | fishStart =>
    simp only [applyEvent, handleFishChoiceStart]
    split <;> exact ⟨h1, h2, h3⟩
  | fishResume =>
    cases hctl : s.ctl with
    | fishAnimating eb =>
      simp only [applyEvent, handleFishChoiceResume, hctl]
      cases hdead : s.isDead with
      | true => exact ⟨h1, h2, h3⟩
      | false =>
        simp only [Bool.false_eq_true, if_false]
        refine ⟨?_, ?_, h3⟩ <;> dsimp only <;> omega
    | idle => simpa [applyEvent, handleFishChoiceResume, hctl] using ⟨h1, h2, h3⟩
    | llWaiting eb dac =>
      simpa [applyEvent, handleFishChoiceResume, hctl] using ⟨h1, h2, h3⟩
    | llAnimating eb dac =>
      simpa [applyEvent, handleFishChoiceResume, hctl] using ⟨h1, h2, h3⟩
  | llStart =>
    simp only [applyEvent, handleLLChoiceStart]
    split <;> exact ⟨h1, h2, h3⟩
  | llDelayResume completed =>
    cases hctl : s.ctl with
    | llWaiting eb dac =>
      simp only [applyEvent, handleLLChoiceDelayResume, hctl]
      split <;> exact ⟨h1, h2, h3⟩
    | idle =>
      simpa [applyEvent, handleLLChoiceDelayResume, hctl] using ⟨h1, h2, h3⟩
    | fishAnimating eb =>
      simpa [applyEvent, handleLLChoiceDelayResume, hctl] using ⟨h1, h2, h3⟩
    | llAnimating eb dac =>
      simpa [applyEvent, handleLLChoiceDelayResume, hctl] using ⟨h1, h2, h3⟩
  | llAnimResume =>
    cases hctl : s.ctl with
    | llAnimating eb dac =>
      simp only [applyEvent, handleLLChoiceAnimResume, hctl]
      cases hdead : s.isDead with
      | true => exact ⟨h1, h2, h3⟩
      | false =>
        simp only [Bool.false_eq_true, if_false]
        have hll : 0 ≤ llReward s := by
          unfold llReward EXPOSURE_REWARD
          split
          · norm_num
          · exact h3
        refine ⟨?_, ?_, h3⟩ <;> dsimp only <;> omega
    | idle => simpa [applyEvent, handleLLChoiceAnimResume, hctl] using ⟨h1, h2, h3⟩
    | fishAnimating eb =>
      simpa [applyEvent, handleLLChoiceAnimResume, hctl] using ⟨h1, h2, h3⟩
    | llWaiting eb dac =>
      simpa [applyEvent, handleLLChoiceAnimResume, hctl] using ⟨h1, h2, h3⟩
  | condTick => exact ⟨h1, h2, h3⟩
  | phaseChange e => exact ⟨h1, h2, h3⟩
  | reset =>
    refine ⟨?_, ?_, h3⟩ <;>
      simp [applyEvent, resetForNewPhase, STARTING_ENERGY, MAX_ENERGY]

/-- Helper: the energy bounds hold along any session trace. -/
theorem energyInv_sessSteps {s t : EState} (hs : SessSteps s t)
    (h : EnergyInv s) : EnergyInv t := by
  induction hs with
  | refl => exact h
  | tail hs ev ih => exact energyInv_applyEvent ev _ ih

/-- Helper: each engine event changes `currentEnergy` only by the drain
decrement (floored at 0), a clamped reward application, the segment
reset to the starting value, or not at all. -/
theorem energy_delta_applyEvent (ev : Event) (s : EState) :
    (applyEvent ev s).currentEnergy = s.currentEnergy ∨
    (ev = Event.drain ∧
      (applyEvent ev s).currentEnergy = max 0 (s.currentEnergy - 1)) ∨
    (ev = Event.fishResume ∧
      (applyEvent ev s).currentEnergy =
        min MAX_ENERGY (s.currentEnergy + SMALLER_SOONER_REWARD)) ∨
    (ev = Event.llAnimResume ∧
      (applyEvent ev s).currentEnergy =
        min MAX_ENERGY (s.currentEnergy + llReward s)) ∨
    (ev = Event.reset ∧ (applyEvent ev s).currentEnergy = STARTING_ENERGY) := by
  cases ev with
  | drain =>
    simp only [applyEvent, drainTick, triggerGameOver]
    split
    · left; rfl
    · split
      · right; left; exact ⟨by trivial, by trivial⟩
      · right; left; exact ⟨by trivial, by trivial⟩
  | fishStart =>
    left; simp only [applyEvent, handleFishChoiceStart]; split <;> rfl
  | fishResume =>
    cases hctl : s.ctl with
    | fishAnimating eb =>
      simp only [applyEvent, handleFishChoiceResume, hctl]
      split
      · left; rfl
      · right; right; left; exact ⟨by trivial, by trivial⟩
    | idle => left; simp [applyEvent, handleFishChoiceResume, hctl]
    | llWaiting eb dac => left; simp [applyEvent, handleFishChoiceResume, hctl]
    | llAnimating eb dac => left; simp [applyEvent, handleFishChoiceResume, hctl]
  | llStart =>
    left; simp only [applyEvent, handleLLChoiceStart]; split <;> rfl
  | llDelayResume completed =>
    left
    cases hctl : s.ctl with
    | llWaiting eb dac =>
      simp only [applyEvent, handleLLChoiceDelayResume, hctl]
      split <;> rfl
    | idle => simp [applyEvent, handleLLChoiceDelayResume, hctl]
    | fishAnimating eb => simp [applyEvent, handleLLChoiceDelayResume, hctl]
    | llAnimating eb dac => simp [applyEvent, handleLLChoiceDelayResume, hctl]
  | llAnimResume =>
    cases hctl : s.ctl with
    | llAnimating eb dac =>
      simp only [applyEvent, handleLLChoiceAnimResume, hctl]
      split
      · left; rfl
      · right; right; right; left; exact ⟨by trivial, by trivial⟩
    | idle => left; simp [applyEvent, handleLLChoiceAnimResume, hctl]
    | fishAnimating eb => left; simp [applyEvent, handleLLChoiceAnimResume, hctl]
    | llWaiting eb dac => left; simp [applyEvent, handleLLChoiceAnimResume, hctl]
  | condTick => left; rfl
  | phaseChange e => left; rfl
  | reset => right; right; right; right; exact ⟨by trivial, by trivial⟩

/-- C3 counterexample: `resetForNewPhase` is an engine operation that
changes `currentEnergy` (here from 0, a state one drain tick after
energy 1, to the starting value 50) in a way that is neither the drain
decrement nor a clamped application of any configured reward (1, 5, 10,
or the exposure reward). -/
theorem c3_energy_mutation_counterexample :
    exDeadZero.currentEnergy = 0 ∧
    (resetForNewPhase exDeadZero).currentEnergy = 50 ∧
    (resetForNewPhase exDeadZero).currentEnergy ≠
      max 0 (exDeadZero.currentEnergy - 1) ∧
    (resetForNewPhase exDeadZero).currentEnergy ≠
      min MAX_ENERGY (exDeadZero.currentEnergy + SMALLER_SOONER_REWARD) ∧
    (resetForNewPhase exDeadZero).currentEnergy ≠
      min MAX_ENERGY (exDeadZero.currentEnergy + 5) ∧
    (resetForNewPhase exDeadZero).currentEnergy ≠
      min MAX_ENERGY (exDeadZero.currentEnergy + EXPOSURE_REWARD) := by
  refine ⟨rfl, rfl, ?_, ?_, ?_, ?_⟩ <;> decide

/-- C3 (amended): along every session trace from the initial state the
bounds `0 ≤ currentEnergy ≤ 100` hold, and every event either leaves
`currentEnergy` unchanged, or is a drain tick decrementing by exactly 1
(floored at 0), or a reward application adding exactly the configured
reward (clamped at 100), or the segment reset reinitializing it to the
configured starting value. -/
theorem c3_energy_invariant (r : Int) (e : Bool) (s : EState)
    (hr : r = 0 ∨ r = 5 ∨ r = 10)
    (hs : SessSteps (initState r e) s) :
    (0 ≤ s.currentEnergy ∧ s.currentEnergy ≤ MAX_ENERGY) ∧
    (∀ ev : Event,
      (applyEvent ev s).currentEnergy = s.currentEnergy ∨
      (ev = Event.drain ∧
        (applyEvent ev s).currentEnergy = max 0 (s.currentEnergy - 1)) ∨
      (ev = Event.fishResume ∧
        (applyEvent ev s).currentEnergy =
          min MAX_ENERGY (s.currentEnergy + SMALLER_SOONER_REWARD)) ∨
      (ev = Event.llAnimResume ∧
        (applyEvent ev s).currentEnergy =
          min MAX_ENERGY (s.currentEnergy + llReward s)) ∨
      (ev = Event.reset ∧
        (applyEvent ev s).currentEnergy = STARTING_ENERGY)) := by
  have hinit : EnergyInv (initState r e) := by
    refine ⟨by norm_num [initState], by norm_num [initState, MAX_ENERGY], ?_⟩
    rcases hr with h | h | h <;> simp [initState, h]
  obtain ⟨h1, h2, _⟩ := energyInv_sessSteps hs hinit
  exact ⟨⟨h1, h2⟩, fun ev => energy_delta_applyEvent ev s⟩

/-- Witness for C3 at a concrete one-step trace (a drain tick from the
initial state of a reward-5 group). -/
theorem c3_energy_invariant_witness :
    (0 ≤ (applyEvent Event.drain (initState 5 false)).currentEnergy ∧
      (applyEvent Event.drain (initState 5 false)).currentEnergy ≤ MAX_ENERGY) ∧
    (∀ ev : Event,
      (applyEvent ev (applyEvent Event.drain (initState 5 false))).currentEnergy =
        (applyEvent Event.drain (initState 5 false)).currentEnergy ∨
      (ev = Event.drain ∧
        (applyEvent ev (applyEvent Event.drain (initState 5 false))).currentEnergy =
          max 0 ((applyEvent Event.drain (initState 5 false)).currentEnergy - 1)) ∨
      (ev = Event.fishResume ∧
        (applyEvent ev (applyEvent Event.drain (initState 5 false))).currentEnergy =
          min MAX_ENERGY ((applyEvent Event.drain (initState 5 false)).currentEnergy +
            SMALLER_SOONER_REWARD)) ∨
      (ev = Event.llAnimResume ∧
        (applyEvent ev (applyEvent Event.drain (initState 5 false))).currentEnergy =
          min MAX_ENERGY ((applyEvent Event.drain (initState 5 false)).currentEnergy +
            llReward (applyEvent Event.drain (initState 5 false)))) ∨
      (ev = Event.reset ∧
        (applyEvent ev (applyEvent Event.drain (initState 5 false))).currentEnergy =
          STARTING_ENERGY)) :=
  c3_energy_invariant 5 false (applyEvent Event.drain (initState 5 false))
    (Or.inr (Or.inl rfl))
    (SessSteps.tail (SessSteps.refl (initState 5 false)) Event.drain)

end GatorGame
